import Mathlib

/-!
A shallow embedding of the sh61 shell core (src/pset5/sh61.c): the
command-list builder inside eval_line, the parent-side and child-side halves
of start_command, and the run_list driver, together with an event-trace view
recording which processes are started, which waits are performed, which
nonblocking reaps happen, and which set_foreground calls occur.
-/

namespace Sh61

/-- Token types, mirroring the TOKEN constants of sh61.h (lines 10-18). -/
inductive TokenType
  | normal
  | redirection
  | sequence
  | background
  | pipe
  | andOp
  | orOp

deriving instance DecidableEq for TokenType

/-- One token produced by parse_shell_token: its type and its text. -/
structure Token where
  type : TokenType
  word : String

deriving instance DecidableEq for Token

/-- struct command (sh61.c lines 11-18).  argv models the char** array as a
list of possibly-null entries; the NULL pointer itself (argv unallocated) is
the empty list.  pid is -1 if no process runs the command; background is the
int flag set to 1 by a TOKEN BACKGROUND token. -/
structure Command where
  argc : Nat
  argv : List (Option String)
  pid : Int
  background : Nat

deriving instance DecidableEq for Command

/-- EXIT_SUCCESS as used by the exit builtin. -/
def EXIT_SUCCESS : Nat := 0

/-- EXIT_FAILURE, the status passed to the child's final exit when execvp
fails (sh61.c line 100). -/
def EXIT_FAILURE : Nat := 1

/-- The cd builtin name (sh61.c line 24). -/
def BUILTIN_CD : String := "cd"

/-- The exit builtin name (sh61.c line 25). -/
def BUILTIN_EXIT : String := "exit"

/-- command_alloc (sh61.c lines 29-37): fresh command with argc 0, argv NULL,
pid -1, background 0. -/
def command_alloc : Command :=
  { argc := 0, argv := [], pid := -1, background := 0 }

/-- command_append_arg (sh61.c lines 55-60): grow argv to argc + 2 slots
keeping the existing argc entries, store the word at index argc and NULL at
index argc + 1, then increment argc. -/
def command_append_arg (c : Command) (word : String) : Command :=
  { c with
    argv := c.argv.take c.argc ++ [some word, none]
    argc := c.argc + 1 }

/-- The effect of one token on the command under construction, i.e. the three
if statements of eval_line's loop body that mutate `current` (sh61.c lines
161-164): a normal token appends an argument, a background token sets the
background flag, every other token type leaves the command unchanged. -/
def build_token_update (cur : Command) (t : Token) : Command :=
  if t.type = TokenType.normal then command_append_arg cur t.word
  else if t.type = TokenType.background then { cur with background := 1 }
  else cur

/-- One iteration of eval_line's token loop (sh61.c lines 160-171) acting on
the pair (commands already linked in before `current`, `current`): after
updating `current` per the token, a sequence or background token finishes the
current command and allocates a fresh one. All other token types (including
pipe, and-and, or-or and redirection, for which the loop has no case) leave
the list structure unchanged. -/
def build_step (st : List Command × Command) (t : Token) : List Command × Command :=
  if t.type = TokenType.sequence ∨ t.type = TokenType.background then
    (st.1 ++ [build_token_update st.2 t], command_alloc)
  else
    (st.1, build_token_update st.2 t)

/-- The linked list of commands eval_line builds from a token stream,
starting from the freshly allocated c1: all finished commands followed by the
final `current` (which is always linked into the list, sh61.c lines 158-171).
-/
def build_list (toks : List Token) : List Command :=
  (toks.foldl build_step ([], command_alloc)).1
    ++ [(toks.foldl build_step ([], command_alloc)).2]

/-- Observable events of one line's evaluation. -/
inductive Ev
  | forkProc (argv : List (Option String))
  | chdirTo (path : Option (Option String))
  | waitBlock (pid : Int)
  | reap
  | setFg (pgid : Int)
  | shellExit

deriving instance DecidableEq for Ev

/-- Result of start_command as seen by the parent shell process. -/
structure StartRes where
  events : List Ev
  ret : Int
  exitShell : Bool

deriving instance DecidableEq for StartRes

/-- Parent-side start_command (sh61.c lines 79-109).  `chdirOk` is the
outcome of the chdir system call for the cd builtin; `forkRet` is fork's
return value in the parent (positive child pid on success, negative on
failure; the 0 return happens only in the child process).  cd runs chdir in
the shell and returns -1 on failure, 0 on success; exit terminates the whole
shell via _exit(EXIT_SUCCESS); otherwise the shell forks — on success it
returns c.pid (the parent's copy, which the child-side assignment at line 96
does not touch), on failure -1. -/
def start_command (c : Command) (chdirOk : Bool) (forkRet : Int) : StartRes :=
  if c.argv.get? 0 = some (some BUILTIN_CD) then
    if chdirOk then
      { events := [Ev.chdirTo (c.argv.get? 1)], ret := 0, exitShell := false }
    else
      { events := [Ev.chdirTo (c.argv.get? 1)], ret := -1, exitShell := false }
  else if c.argv.get? 0 = some (some BUILTIN_EXIT) then
    { events := [], ret := 0, exitShell := true }
  else if 0 < forkRet then
    { events := [Ev.forkProc c.argv], ret := c.pid, exitShell := false }
  else
    { events := [], ret := -1, exitShell := false }

/-- What the child process does after the fork (sh61.c lines 93-101): it sets
its own copy's pid to fork's return value 0, then either the exec succeeds
and the process image is replaced by the program named in argv, or exec fails
and the child terminates immediately via _exit(EXIT_FAILURE). -/
inductive ChildResult
  | execed (argv : List (Option String))
  | exited (status : Nat)

deriving instance DecidableEq for ChildResult

/-- Child-side start_command: the child's updated copy of the command and its
outcome, as a function of whether execvp succeeds. -/
def start_command_child (c : Command) (execOk : Bool) : Command × ChildResult :=
  ({ c with pid := 0 },
   if execOk then ChildResult.execed c.argv else ChildResult.exited EXIT_FAILURE)

/-- run_list (sh61.c lines 131-145) as an event trace.  The loop stops at a
command with argc 0; otherwise it calls start_command (the k-th call drawing
chdir outcome cde k and fork outcome fke k), and — unless the command's
background flag is set — performs a blocking waitpid on the returned value,
storing the delivered status sts k into the local status variable (which the
code never reads).  It then stops if there is no next command. -/
def run_list_go (cde : Nat → Bool) (fke : Nat → Int) (sts : Nat → Int) :
    Nat → Int → List Command → List Ev
  | _, _, [] => []
  | k, status, c :: rest =>
    if c.argc = 0 then []
    else if (start_command c (cde k) (fke k)).exitShell then
      (start_command c (cde k) (fke k)).events ++ [Ev.shellExit]
    else
      (start_command c (cde k) (fke k)).events
        ++ (if c.background = 0 then
              [Ev.waitBlock (start_command c (cde k) (fke k)).ret]
            else [])
        ++ (if rest = [] then []
            else
              run_list_go cde fke sts (k + 1)
                (if c.background = 0 then sts k else status) rest)

/-- eval_line (sh61.c lines 151-176): the token loop performs one nonblocking
waitpid(-1, 0, WNOHANG) reap per token (line 170), then run_list is invoked
only when the first command's argc is nonzero (lines 173-174). -/
def eval_line (toks : List Token) (cde : Nat → Bool) (fke : Nat → Int)
    (sts : Nat → Int) : List Ev :=
  List.replicate toks.length Ev.reap
    ++ (if ((build_list toks).headD command_alloc).argc ≠ 0 then
          run_list_go cde fke sts 0 0 (build_list toks)
        else [])

/-- One iteration of main's read loop for a complete line (sh61.c lines
234-242): eval_line on the line, then the nonblocking waitpid(-1, 0, WNOHANG)
reap at line 242. -/
def main_line (toks : List Token) (cde : Nat → Bool) (fke : Nat → Int)
    (sts : Nat → Int) : List Ev :=
  eval_line toks cde fke sts ++ [Ev.reap]

/-- The terminal-control setup main performs at startup (sh61.c line 201):
the single set_foreground(0) call putting the shell's own group in the
foreground. -/
def main_startup : List Ev := [Ev.setFg 0]

/-- True when a trace contains a set_foreground call. -/
def has_setFg : List Ev → Bool
  | [] => false
  | Ev.setFg _ :: _ => true
  | _ :: es => has_setFg es

/-- The trace run_list produces on a list of plain foreground commands: each
command is forked and then waited for, in list order. -/
def seq_trace : List Command → List Ev
  | [] => []
  | c :: rest => Ev.forkProc c.argv :: Ev.waitBlock c.pid :: seq_trace rest

/-- Constant environments used to instantiate theorems on concrete inputs. -/
def env_true : Nat → Bool := fun _ => true

def env_one : Nat → Int := fun _ => 1

def env_zero : Nat → Int := fun _ => 0

def env_neg : Nat → Int := fun _ => -7

end Sh61

namespace Sh61

/-! ## List helpers -/

theorem take_length_append {α : Type} (a b : List α) :
    (a ++ b).take a.length = a := by
  induction a with
  | nil => simp
  | cons x xs ih => simp [ih]

theorem get_app_left {α : Type} (a b : List α) (i : Nat) (h : i < a.length) :
    (a ++ b).get? i = a.get? i := by
  induction a generalizing i with
  | nil => simp at h
  | cons x xs ih =>
    cases i with
    | zero => rfl
    | succ j =>
      have hj : j < xs.length := by simpa using h
      simpa using ih j hj

theorem get_app_length {α : Type} (a b : List α) :
    (a ++ b).get? a.length = b.get? 0 := by
  induction a with
  | nil => rfl
  | cons x xs ih => simpa using ih

/-! ## Builder invariants

Every command in the list built by eval_line is obtained from command_alloc
by applications of command_append_arg and the background-flag assignment;
the following lemma packages induction over that construction. -/

theorem build_token_update_inv (P : Command → Prop)
    (h1 : ∀ c w, P c → P (command_append_arg c w))
    (h2 : ∀ c, P c → P { c with background := 1 })
    (cur : Command) (t : Token) (hc : P cur) :
    P (build_token_update cur t) := by
  unfold build_token_update
  split_ifs with hn hb
  · exact h1 cur t.word hc
  · exact h2 cur hc
  · exact hc

theorem build_fold_inv (P : Command → Prop)
    (h0 : P command_alloc)
    (h1 : ∀ c w, P c → P (command_append_arg c w))
    (h2 : ∀ c, P c → P { c with background := 1 }) :
    ∀ (toks : List Token) (st : List Command × Command),
      (∀ c ∈ st.1, P c) → P st.2 →
      (∀ c ∈ (toks.foldl build_step st).1, P c)
        ∧ P (toks.foldl build_step st).2 := by
  intro toks
  induction toks with
  | nil => intro st hf hc; exact ⟨hf, hc⟩
  | cons t ts ih =>
    intro st hf hc
    rw [List.foldl_cons]
    have hu : P (build_token_update st.2 t) :=
      build_token_update_inv P h1 h2 st.2 t hc
    refine ih (build_step st t) ?_ ?_
    · intro c hcm
      unfold build_step at hcm
      split_ifs at hcm with hseq
      · rcases List.mem_append.mp hcm with h | h
        · exact hf c h
        · rw [List.mem_singleton] at h; subst h; exact hu
      · exact hf c hcm
    · unfold build_step
      split_ifs with hseq
      · exact h0
      · exact hu

theorem build_inv (P : Command → Prop)
    (h0 : P command_alloc)
    (h1 : ∀ c w, P c → P (command_append_arg c w))
    (h2 : ∀ c, P c → P { c with background := 1 })
    (toks : List Token) (c : Command) (hc : c ∈ build_list toks) : P c := by
  unfold build_list at hc
  have h := build_fold_inv P h0 h1 h2 toks ([], command_alloc)
    (by intro c hc'; simp at hc') h0
  rcases List.mem_append.mp hc with h' | h'
  · exact h.1 c h'
  · rw [List.mem_singleton] at h'; subst h'; exact h.2

/-- The builder never assigns the pid field: every command in the built list
still carries command_alloc's pid of -1 (sh61.c line 33; lines 158-171 touch
only argv, argc and background). -/
theorem pid_built (toks : List Token) (c : Command) (hc : c ∈ build_list toks) :
    c.pid = -1 := by
  refine build_inv (fun c => c.pid = -1) rfl ?_ ?_ toks c hc
  · intro c w h; simpa [command_append_arg] using h
  · intro c h; simpa using h

end Sh61

namespace Sh61

/-! ## start_command and run_list unfolding lemmas -/

/-- For a command that is neither builtin, when fork succeeds, start_command
forks one process running argv and returns the parent copy's pid field. -/
theorem start_command_nonbuiltin (c : Command) (b : Bool) (f : Int)
    (hcd : c.argv.get? 0 ≠ some (some BUILTIN_CD))
    (hex : c.argv.get? 0 ≠ some (some BUILTIN_EXIT))
    (hf : 0 < f) :
    start_command c b f
      = { events := [Ev.forkProc c.argv], ret := c.pid, exitShell := false } := by
  unfold start_command
  rw [if_neg hcd, if_neg hex, if_pos hf]

/-- Unfolding run_list's loop body for a non-empty, non-builtin command whose
fork succeeds. -/
theorem run_cons_nonbuiltin (cde : Nat → Bool) (fke : Nat → Int)
    (sts : Nat → Int) (k : Nat) (s : Int) (c : Command) (rest : List Command)
    (hargc : ¬ c.argc = 0)
    (hcd : c.argv.get? 0 ≠ some (some BUILTIN_CD))
    (hex : c.argv.get? 0 ≠ some (some BUILTIN_EXIT))
    (hf : 0 < fke k) :
    run_list_go cde fke sts k s (c :: rest)
      = Ev.forkProc c.argv
          :: ((if c.background = 0 then [Ev.waitBlock c.pid] else [])
              ++ (if rest = [] then []
                  else
                    run_list_go cde fke sts (k + 1)
                      (if c.background = 0 then sts k else s) rest)) := by
  rw [run_list_go]
  rw [if_neg hargc]
  rw [start_command_nonbuiltin c (cde k) (fke k) hcd hex hf]
  simp

/-- No branch of start_command emits a set_foreground event. -/
theorem has_setFg_start (c : Command) (b : Bool) (f : Int) :
    has_setFg (start_command c b f).events = false := by
  unfold start_command
  split_ifs <;> rfl

theorem has_setFg_append (a b : List Ev) :
    has_setFg (a ++ b) = (has_setFg a || has_setFg b) := by
  induction a with
  | nil => rfl
  | cons x xs ih => cases x <;> simp [has_setFg, ih]

theorem has_setFg_replicate (n : Nat) :
    has_setFg (List.replicate n Ev.reap) = false := by
  induction n with
  | zero => rfl
  | succ m ih => simpa [List.replicate, has_setFg] using ih

/-- run_list performs no set_foreground call on any command list. -/
theorem has_setFg_run (cde : Nat → Bool) (fke : Nat → Int) (sts : Nat → Int) :
    ∀ (cmds : List Command) (k : Nat) (s : Int),
      has_setFg (run_list_go cde fke sts k s cmds) = false := by
  intro cmds
  induction cmds with
  | nil => intro k s; rfl
  | cons c rest ih =>
    intro k s
    rw [run_list_go]
    split_ifs with h1 h2 h3 h4 h5 <;>
      simp [has_setFg, has_setFg_append, has_setFg_start, ih]

end Sh61

namespace Sh61

/-! ## Shape of argv arrays produced by the builder -/

/-- The argv array a command holds after appending the words ws one at a
time: NULL (the empty list) when no word was ever appended, otherwise the
words followed by the NULL terminator slot. -/
def argvOf (ws : List String) : List (Option String) :=
  if ws = [] then [] else ws.map some ++ [none]

theorem command_append_arg_shape (c : Command) (w : String) (ws : List String)
    (ha : c.argc = ws.length) (hv : c.argv = argvOf ws) :
    (command_append_arg c w).argc = (ws ++ [w]).length
      ∧ (command_append_arg c w).argv = argvOf (ws ++ [w]) := by
  constructor
  · simp [command_append_arg, ha]
  · show c.argv.take c.argc ++ [some w, none] = argvOf (ws ++ [w])
    cases ws with
    | nil =>
      have ha0 : c.argc = 0 := by simpa using ha
      have hv0 : c.argv = [] := by simpa [argvOf] using hv
      simp [ha0, hv0, argvOf]
    | cons x xs =>
      have hne : x :: xs ≠ ([] : List String) := by simp
      rw [ha, hv]
      rw [argvOf, if_neg hne]
      have hlen : ((x :: xs).map some).length = (x :: xs).length :=
        List.length_map _ _
      rw [← hlen, take_length_append]
      simp [argvOf, List.map_append]

/-- Every command in the built list has argv of the shape argvOf ws with
argc = ws.length: the builder only ever touches argv through
command_append_arg. -/
theorem argv_shape (toks : List Token) (c : Command) (hc : c ∈ build_list toks) :
    ∃ ws : List String, c.argc = ws.length ∧ c.argv = argvOf ws := by
  refine build_inv (fun c => ∃ ws : List String, c.argc = ws.length ∧ c.argv = argvOf ws)
    ⟨[], rfl, rfl⟩ ?_ ?_ toks c hc
  · intro c w ⟨ws, ha, hv⟩
    exact ⟨ws ++ [w], (command_append_arg_shape c w ws ha hv).1,
      (command_append_arg_shape c w ws ha hv).2⟩
  · intro c ⟨ws, ha, hv⟩
    exact ⟨ws, ha, hv⟩

end Sh61

namespace Sh61

/-- Claim C10: every command built by eval_line satisfies the invariant that
when argc > 0, argv holds exactly argc non-null argument strings followed by
a NULL terminator at index argc, as established by command_append_arg. -/
theorem argv_null_terminated (toks : List Token) (c : Command)
    (hc : c ∈ build_list toks) (hpos : 0 < c.argc) :
    c.argv.length = c.argc + 1
    ∧ (∀ i, i < c.argc → ∃ w : String, c.argv.get? i = some (some w))
    ∧ c.argv.get? c.argc = some none := by
  obtain ⟨ws, ha, hv⟩ := argv_shape toks c hc
  have hne : ws ≠ [] := by
    intro h
    subst h
    rw [ha] at hpos
    simp at hpos
  have hv' : c.argv = ws.map some ++ [none] := by rw [hv, argvOf, if_neg hne]
  have hlen : (ws.map some).length = ws.length := List.length_map _ _
  refine ⟨?_, ?_, ?_⟩
  · rw [hv']
    simp [ha]
  · intro i hi
    have hi2 : i < ws.length := ha ▸ hi
    have hi' : i < (ws.map some).length := by rw [hlen]; exact hi2
    have h1 : c.argv.get? i = (ws.map some).get? i := by
      rw [hv']
      exact get_app_left _ _ i hi'
    refine ⟨ws.get ⟨i, hi2⟩, ?_⟩
    rw [h1, List.get?_map, List.get?_eq_get hi2]
    rfl
  · rw [hv', ha, ← hlen, get_app_length]
    rfl

def toks_echo_hi : List Token :=
  [⟨TokenType.normal, "echo"⟩, ⟨TokenType.normal, "hi"⟩]

def cmd_echo_hi : Command :=
  { argc := 2, argv := [some "echo", some "hi", none], pid := -1, background := 0 }

theorem argv_null_terminated_witness :
    cmd_echo_hi.argv.length = cmd_echo_hi.argc + 1
    ∧ (∃ w : String, cmd_echo_hi.argv.get? 0 = some (some w))
    ∧ cmd_echo_hi.argv.get? cmd_echo_hi.argc = some none := by
  have h := argv_null_terminated toks_echo_hi cmd_echo_hi (by decide) (by decide)
  exact ⟨h.1, h.2.1 0 (by decide), h.2.2⟩

/-- Claim C9: for every non-builtin command built by eval_line, start_command
returns in the parent the parent copy's pid field, which is still -1 (the
assignment at line 96 happens only in the child's copy after the fork), so
run_list's blocking waitpid call receives pid -1 and waits on any child
process rather than the specific command it started. -/
theorem start_returns_neg_one_wait_any (toks : List Token) (c : Command)
    (hc : c ∈ build_list toks)
    (hcd : c.argv.get? 0 ≠ some (some BUILTIN_CD))
    (hex : c.argv.get? 0 ≠ some (some BUILTIN_EXIT)) :
    c.pid = -1
    ∧ (∀ (b : Bool) (f : Int), 0 < f → (start_command c b f).ret = -1)
    ∧ (∀ (cde : Nat → Bool) (fke : Nat → Int) (sts : Nat → Int) (k : Nat)
         (s : Int) (rest : List Command),
         ¬ c.argc = 0 → c.background = 0 → 0 < fke k →
         run_list_go cde fke sts k s (c :: rest)
           = Ev.forkProc c.argv :: Ev.waitBlock (-1)
               :: (if rest = [] then []
                   else run_list_go cde fke sts (k + 1) (sts k) rest)) := by
  have hpid := pid_built toks c hc
  refine ⟨hpid, ?_, ?_⟩
  · intro b f hf
    rw [start_command_nonbuiltin c b f hcd hex hf]
    exact hpid
  · intro cde fke sts k s rest hargc hbg hf
    rw [run_cons_nonbuiltin cde fke sts k s c rest hargc hcd hex hf]
    simp [hbg, hpid]

def toks_sleep : List Token := [⟨TokenType.normal, "sleep"⟩]

def cmd_sleep : Command :=
  { argc := 1, argv := [some "sleep", none], pid := -1, background := 0 }

theorem start_returns_neg_one_wait_any_witness :
    cmd_sleep.pid = -1
    ∧ (start_command cmd_sleep true 7).ret = -1
    ∧ run_list_go env_true env_one env_zero 0 0 (cmd_sleep :: [])
        = Ev.forkProc cmd_sleep.argv :: Ev.waitBlock (-1)
            :: (if ([] : List Command) = [] then []
                else run_list_go env_true env_one env_zero 1 (env_zero 0) []) := by
  have h := start_returns_neg_one_wait_any toks_sleep cmd_sleep
    (by decide) (by decide) (by decide)
  exact ⟨h.1, h.2.1 true 7 (by decide),
    h.2.2 env_true env_one env_zero 0 0 [] (by decide) (by decide) (by decide)⟩

end Sh61

namespace Sh61

/-- Claim C3: a pipeline whose join operator is background (flag set by the
TOKEN BACKGROUND case) is started and run_list proceeds immediately to the
next pipeline with no blocking wait on it, and each line's evaluation in main
ends with the nonblocking waitpid(-1, 0, WNOHANG) reap of terminated
children. -/
theorem background_no_block_and_reap (cde : Nat → Bool) (fke : Nat → Int)
    (sts : Nat → Int) (k : Nat) (s : Int) (c : Command) (rest : List Command)
    (hargc : ¬ c.argc = 0) (hbg : ¬ c.background = 0)
    (hcd : c.argv.get? 0 ≠ some (some BUILTIN_CD))
    (hex : c.argv.get? 0 ≠ some (some BUILTIN_EXIT))
    (hf : 0 < fke k) (hrest : rest ≠ []) :
    run_list_go cde fke sts k s (c :: rest)
      = Ev.forkProc c.argv :: run_list_go cde fke sts (k + 1) s rest
    ∧ ∀ toks, ∃ l, main_line toks cde fke sts = l ++ [Ev.reap] := by
  constructor
  · rw [run_cons_nonbuiltin cde fke sts k s c rest hargc hcd hex hf]
    simp [hbg, hrest]
  · intro toks
    exact ⟨eval_line toks cde fke sts, rfl⟩

def cmd_sleep_bg : Command :=
  { argc := 1, argv := [some "sleep", none], pid := -1, background := 1 }

def cmd_echo1 : Command :=
  { argc := 1, argv := [some "echo", none], pid := -1, background := 0 }

theorem background_no_block_and_reap_witness :
    run_list_go env_true env_one env_zero 0 0 (cmd_sleep_bg :: [cmd_echo1])
      = Ev.forkProc cmd_sleep_bg.argv
          :: run_list_go env_true env_one env_zero 1 0 [cmd_echo1]
    ∧ ∃ l, main_line [] env_true env_one env_zero = l ++ [Ev.reap] := by
  have h := background_no_block_and_reap env_true env_one env_zero 0 0
    cmd_sleep_bg [cmd_echo1] (by decide) (by decide) (by decide) (by decide)
    (by decide) (by decide)
  exact ⟨h.1, h.2 []⟩

theorem run_seq_aux (cde : Nat → Bool) (fke : Nat → Int) (sts : Nat → Int)
    (hf : ∀ j, 0 < fke j) :
    ∀ (cmds : List Command),
      (∀ c ∈ cmds, ¬ c.argc = 0 ∧ c.background = 0
        ∧ c.argv.get? 0 ≠ some (some BUILTIN_CD)
        ∧ c.argv.get? 0 ≠ some (some BUILTIN_EXIT)) →
      ∀ (k : Nat) (s : Int), run_list_go cde fke sts k s cmds = seq_trace cmds := by
  intro cmds
  induction cmds with
  | nil => intro h k s; rfl
  | cons c rest ih =>
    intro h k s
    obtain ⟨h1, h2, h3, h4⟩ := h c (List.mem_cons_self c rest)
    rw [run_cons_nonbuiltin cde fke sts k s c rest h1 h3 h4 (hf k)]
    rw [seq_trace]
    cases rest with
    | nil => simp [h2, seq_trace]
    | cons d ds =>
      have hr := ih (fun c' hc' => h c' (List.mem_cons_of_mem c hc')) (k + 1) (sts k)
      simp [h2, hr]

/-- Claim C7: run_list executes the commands of a list of plain foreground
commands one after another in written order — each fork followed by its wait,
then the next command — and the trace is identical for every assignment of
exit statuses to the waits: the collected status is never consulted. -/
theorem sequence_unconditional (cmds : List Command)
    (h : ∀ c ∈ cmds, ¬ c.argc = 0 ∧ c.background = 0
      ∧ c.argv.get? 0 ≠ some (some BUILTIN_CD)
      ∧ c.argv.get? 0 ≠ some (some BUILTIN_EXIT))
    (cde : Nat → Bool) (fke : Nat → Int) (sts sts' : Nat → Int)
    (hf : ∀ j, 0 < fke j) (k : Nat) (s s' : Int) :
    run_list_go cde fke sts k s cmds = seq_trace cmds
    ∧ run_list_go cde fke sts k s cmds = run_list_go cde fke sts' k s' cmds := by
  have h1 := run_seq_aux cde fke sts hf cmds h k s
  have h2 := run_seq_aux cde fke sts' hf cmds h k s'
  exact ⟨h1, h1.trans h2.symm⟩

def cmd_a1 : Command :=
  { argc := 1, argv := [some "a", none], pid := -1, background := 0 }

def cmd_b1 : Command :=
  { argc := 1, argv := [some "b", none], pid := -1, background := 0 }

theorem sequence_unconditional_witness :
    run_list_go env_true env_one env_zero 0 0 [cmd_a1, cmd_b1]
      = seq_trace [cmd_a1, cmd_b1]
    ∧ run_list_go env_true env_one env_zero 0 0 [cmd_a1, cmd_b1]
        = run_list_go env_true env_one env_neg 0 5 [cmd_a1, cmd_b1] := by
  have h := sequence_unconditional [cmd_a1, cmd_b1] (by decide)
    env_true env_one env_zero env_neg (fun _ => Int.one_pos) 0 0 5
  exact ⟨h.1, h.2⟩

end Sh61

namespace Sh61

/-! ## Concrete token streams used as evidence -/

def toks_and : List Token :=
  [⟨TokenType.normal, "false"⟩, ⟨TokenType.andOp, "&&"⟩,
   ⟨TokenType.normal, "echo"⟩, ⟨TokenType.normal, "hi"⟩]

def toks_or : List Token :=
  [⟨TokenType.normal, "a"⟩, ⟨TokenType.orOp, "||"⟩, ⟨TokenType.normal, "b"⟩]

def toks_pipe : List Token :=
  [⟨TokenType.normal, "echo"⟩, ⟨TokenType.normal, "a"⟩, ⟨TokenType.pipe, "|"⟩,
   ⟨TokenType.normal, "tr"⟩, ⟨TokenType.normal, "a"⟩, ⟨TokenType.normal, "b"⟩]

def toks_redir : List Token :=
  [⟨TokenType.normal, "echo"⟩, ⟨TokenType.normal, "hi"⟩,
   ⟨TokenType.redirection, ">"⟩, ⟨TokenType.normal, "out"⟩]

def toks_mid_empty : List Token :=
  [⟨TokenType.normal, "echo"⟩, ⟨TokenType.normal, "a"⟩, ⟨TokenType.sequence, ";"⟩,
   ⟨TokenType.sequence, ";"⟩, ⟨TokenType.normal, "echo"⟩, ⟨TokenType.normal, "b"⟩]

/-- Claim C1 (code evidence): eval_line's loop has no case for the and-and or
or-or token types, so on the line false && echo hi the operator token is
dropped and both sides are merged into the single command false echo hi,
which is started unconditionally; the right-hand side is never a separate
pipeline guarded by the left side's exit status, and likewise for or-or. -/
theorem and_or_tokens_dropped :
    build_list toks_and
      = [{ argc := 3, argv := [some "false", some "echo", some "hi", none],
           pid := -1, background := 0 }]
    ∧ eval_line toks_and env_true env_one env_zero
      = List.replicate 4 Ev.reap
          ++ [Ev.forkProc [some "false", some "echo", some "hi", none],
              Ev.waitBlock (-1)]
    ∧ build_list toks_or
      = [{ argc := 2, argv := [some "a", some "b", none],
           pid := -1, background := 0 }] := by
  decide

/-- Claim C2 (code evidence): eval_line's loop has no case for the pipe token
type, so on the line echo a | tr a b the pipe token is dropped and the whole
line becomes the single command echo a tr a b; exactly one process is started
and no multi-stage pipeline with a last-stage exit status exists. -/
theorem pipe_tokens_dropped :
    build_list toks_pipe
      = [{ argc := 5,
           argv := [some "echo", some "a", some "tr", some "a", some "b", none],
           pid := -1, background := 0 }]
    ∧ eval_line toks_pipe env_true env_one env_zero
      = List.replicate 6 Ev.reap
          ++ [Ev.forkProc [some "echo", some "a", some "tr", some "a", some "b", none],
              Ev.waitBlock (-1)] := by
  decide

/-- Claim C4 (code evidence): the evaluation of a line never performs a
set_foreground call — run_list neither transfers the terminal's foreground
process group to a pipeline's group before waiting nor restores it after —
and the only set_foreground call in the program is main's startup
set_foreground(0). -/
theorem run_never_sets_foreground :
    (∀ (toks : List Token) (cde : Nat → Bool) (fke : Nat → Int) (sts : Nat → Int),
      has_setFg (main_line toks cde fke sts) = false)
    ∧ main_startup = [Ev.setFg 0] := by
  constructor
  · intro toks cde fke sts
    unfold main_line eval_line
    have hin : has_setFg
        (if ((build_list toks).headD command_alloc).argc ≠ 0 then
          run_list_go cde fke sts 0 0 (build_list toks)
        else []) = false := by
      split_ifs with h
      · exact has_setFg_run cde fke sts (build_list toks) 0 0
      · rfl
    rw [has_setFg_append, has_setFg_append, has_setFg_replicate, hin]
    rfl
  · rfl

/-- Claim C5 (code evidence): eval_line's loop has no case for the
redirection token type, so on the line echo hi > out the redirection operator
token is dropped and its target word out is appended as an ordinary argument
of the command; no redirection entry exists anywhere in the command
structure, and the started process receives out in its argv. -/
theorem redirection_target_becomes_argument :
    build_list toks_redir
      = [{ argc := 3, argv := [some "echo", some "hi", some "out", none],
           pid := -1, background := 0 }]
    ∧ eval_line toks_redir env_true env_one env_zero
      = List.replicate 4 Ev.reap
          ++ [Ev.forkProc [some "echo", some "hi", some "out", none],
              Ev.waitBlock (-1)] := by
  decide

def cmd_nosuch : Command :=
  { argc := 1, argv := [some "nosuchprogram", none], pid := -1, background := 0 }

/-- Claim C6 counterexample: when execvp fails for the command nosuchprogram,
the child terminates with exit status EXIT_FAILURE = 1; since 1 is itself an
ordinary exit status of a program that ran and then failed (0 < 1 ≤ 255, the
status the program false reports), the exec-failure status is not distinct
from the status of a program that ran and then failed. -/
theorem exec_fail_status_not_distinct :
    (start_command_child cmd_nosuch false).2 = ChildResult.exited 1
    ∧ 0 < (1 : Nat) ∧ (1 : Nat) ≤ 255 := by
  decide

/-- Claim C6 (amended): when execvp fails the child terminates immediately
with the non-zero status EXIT_FAILURE; the parent-side start_command result
is a function of the command and the fork outcome only, so the exec error
reaches the shell only through the child's observed exit status — but the
status used is 1, not a status distinct from those of programs that ran and
failed. -/
theorem exec_fail_exits_failure :
    ∀ c : Command,
      (start_command_child c false).2 = ChildResult.exited EXIT_FAILURE
      ∧ 0 < EXIT_FAILURE := by
  intro c
  exact ⟨rfl, Nat.one_pos⟩

/-- Claim C8 counterexample: on the line echo a ; ; echo b the empty command
between the two sequence operators is not merely skipped: run_list stops its
loop there, so the non-empty command echo b of the same list is never
started. -/
theorem empty_command_stops_list_cex :
    build_list toks_mid_empty
      = [{ argc := 2, argv := [some "echo", some "a", none], pid := -1, background := 0 },
         { argc := 0, argv := [], pid := -1, background := 0 },
         { argc := 2, argv := [some "echo", some "b", none], pid := -1, background := 0 }]
    ∧ eval_line toks_mid_empty env_true env_one env_zero
      = List.replicate 6 Ev.reap
          ++ [Ev.forkProc [some "echo", some "a", none], Ev.waitBlock (-1)]
    ∧ (eval_line toks_mid_empty env_true env_one env_zero).count
        (Ev.forkProc [some "echo", some "b", none]) = 0 := by
  decide

/-- Claim C8 (amended): a line with no tokens starts no process, and an empty
command starts no process — but run_list stops at an empty command instead of
skipping it, so the remaining commands of the list are not executed. -/
theorem empty_command_skip_behavior :
    (∀ (cde : Nat → Bool) (fke : Nat → Int) (sts : Nat → Int),
      eval_line [] cde fke sts = [])
    ∧ (∀ (cde : Nat → Bool) (fke : Nat → Int) (sts : Nat → Int) (k : Nat)
         (s : Int) (c : Command) (rest : List Command), c.argc = 0 →
         run_list_go cde fke sts k s (c :: rest) = []) := by
  constructor
  · intro cde fke sts
    rfl
  · intro cde fke sts k s c rest h
    rw [run_list_go, if_pos h]

theorem empty_command_skip_behavior_witness :
    eval_line [] env_true env_one env_zero = []
    ∧ run_list_go env_true env_one env_zero 0 0 (command_alloc :: [cmd_echo1]) = [] :=
  ⟨empty_command_skip_behavior.1 env_true env_one env_zero,
   empty_command_skip_behavior.2 env_true env_one env_zero 0 0 command_alloc
     [cmd_echo1] rfl⟩

end Sh61
